import Mathlib

/-!
Shallow embedding of `tools/runpod-mcp/test-worker.py`, the deployment-test
worker of this repository (the "Artifact Execution Service" of the spec).

The embedding models:
  * POSIX-style path strings (join, component-wise resolution of `..`/`.`),
  * the worker's filesystem effects as an explicit state record (`PState`),
  * external facilities (subprocess runs, dynamic module loading) as an
    oracle record (`World`) so that theorems quantify over all behaviors,
  * every function of the source file under its source name
    (`runpod_handler`, `handle_artifact_deployment`, `handle_file_deployment`,
    `execute_entrypoint`, `execute_python_script`, `execute_python_function`,
    `execute_node_script`, `execute_shell_command`).
-/

namespace RunpodWorker

/-! ### Character-list utilities (modelling Python string operations) -/

/-- Does the character list contain `c`?  (Python `c in s`.) -/
def containsChar (c : Char) : List Char → Bool
  | [] => false
  | a :: as => if a = c then true else containsChar c as

/-- Split a character list at the first occurrence of `sep`
(Python `s.split(sep, 1)`), returning `none` when `sep` is absent. -/
def splitFirst (sep : Char) : List Char → Option (List Char × List Char)
  | [] => none
  | c :: cs =>
    if c = sep then some ([], cs)
    else
      match splitFirst sep cs with
      | none => none
      | some (a, b) => some (c :: a, b)

/-- Split a character list at every occurrence of `sep`
(Python `s.split(sep)`); the result is never empty. -/
def splitChar (sep : Char) : List Char → List (List Char)
  | [] => [[]]
  | c :: cs =>
    match splitChar sep cs with
    | [] => [[c]]
    | h :: t => if c = sep then [] :: h :: t else (c :: h) :: t

/-- `isPrefixList p l` decides whether `p` is a leading segment of `l`. -/
def isPrefixList {α : Type} [DecidableEq α] : List α → List α → Bool
  | [], _ => true
  | _ :: _, [] => false
  | a :: as, b :: bs => if a = b then isPrefixList as bs else false

/-- `startsWithChars p l` decides whether `p` is a leading segment of `l`. -/
def startsWithChars (p l : List Char) : Bool := isPrefixList p l

/-- Python `s.endswith(suffix)`. -/
def endsWithStr (s suffix : String) : Bool :=
  startsWithChars suffix.data.reverse s.data.reverse

/-- Python `':' in entrypoint`. -/
def hasColon (s : String) : Bool := containsChar ':' s.data

example : hasColon "a.py:run" = true := by decide
example : hasColon "a.py" = false := by decide
example : endsWithStr "a.py" ".py" = true := by decide
example : endsWithStr "a.js" ".py" = false := by decide
example : splitFirst ':' "a.py:run".data = some ("a.py".data, "run".data) := by decide

/-! ### POSIX path model

Paths are plain strings, as in the source.  `joinPath` models
`os.path.join` for a single (possibly absolute) right operand, and
`resolve` normalizes a path into its list of components, interpreting
`.`, `..` and empty components the POSIX way, so that "p lies under d"
is expressible as a prefix relation on resolved component lists. -/

/-- Python `os.path.isabs` restricted to POSIX: the path starts with `/`. -/
def isAbsPath (p : String) : Bool := p.data.head? = some '/'

/-- `os.path.join(a, b)` on POSIX: an absolute `b` discards `a`. -/
def joinPath (a b : String) : String := if isAbsPath b then b else a ++ "/" ++ b

/-- One step of path normalization over a reversed accumulator of
components: empty and `.` components vanish, `..` pops, anything else
is pushed. -/
def normStep (acc : List (List Char)) (c : List Char) : List (List Char) :=
  if c = [] then acc
  else if c = ['.'] then acc
  else if c = ['.', '.'] then acc.tail
  else c :: acc

/-- Normalize a component list left-to-right. -/
def normAux (acc : List (List Char)) (l : List (List Char)) : List (List Char) :=
  l.foldl normStep acc

/-- The resolved components of a path string: split on `/`, then
normalize `.`/`..`/empty components away. -/
def resolve (p : String) : List (List Char) := (normAux [] (splitChar '/' p.data)).reverse

/-- `underOrEq root p` holds when `p` resolves to a location inside
(or equal to) `root`. -/
def underOrEq (root p : String) : Bool := isPrefixList (resolve root) (resolve p)

example : resolve "/tmp/tmp0/../evil.txt" = ["tmp".data, "evil.txt".data] := by decide
example : underOrEq "/tmp/tmp0" "/tmp/tmp0/x/y" = true := by decide
example : underOrEq "/tmp/tmp0" "/tmp/tmp0/../evil.txt" = false := by decide
example : underOrEq "/tmp/tmp0" "/etc/passwd" = false := by decide

/-! ### Basic lemmas about the utilities -/

theorem sdata_append (a b : String) : (a ++ b).data = a.data ++ b.data := rfl

theorem containsChar_eq_false_iff {c : Char} {l : List Char} :
    containsChar c l = false ↔ c ∉ l := by
  induction l with
  | nil => simp [containsChar]
  | cons a as ih =>
      simp only [containsChar, List.mem_cons]
      by_cases h : a = c
      · subst h; simp
      · simp only [if_neg h, ih]
        constructor
        · intro hna hor
          rcases hor with h1 | h2
          · exact h h1.symm
          · exact hna h2
        · intro hn hm
          exact hn (Or.inr hm)

theorem splitFirst_of_not_mem {sep : Char} {l : List Char} (h : sep ∉ l) :
    splitFirst sep l = none := by
  induction l with
  | nil => rfl
  | cons c cs ih =>
      have hc : ¬ c = sep := fun e => h (e ▸ List.mem_cons_self c cs)
      have hcs : sep ∉ cs := fun m => h (List.mem_cons_of_mem c m)
      simp [splitFirst, hc, ih hcs]

theorem splitFirst_append {sep : Char} {a : List Char} (b : List Char) (h : sep ∉ a) :
    splitFirst sep (a ++ sep :: b) = some (a, b) := by
  induction a with
  | nil => simp [splitFirst]
  | cons c cs ih =>
      have hc : ¬ c = sep := fun e => h (e ▸ List.mem_cons_self c cs)
      have hcs : sep ∉ cs := fun m => h (List.mem_cons_of_mem c m)
      simp [splitFirst, hc, ih hcs]

theorem splitChar_ne_nil (sep : Char) (l : List Char) : splitChar sep l ≠ [] := by
  cases l with
  | nil => simp [splitChar]
  | cons c cs =>
      simp only [splitChar]
      cases h : splitChar sep cs with
      | nil => simp
      | cons h t =>
          by_cases hc : c = sep <;> simp [hc]

theorem splitChar_append (sep : Char) (xs ys : List Char) :
    splitChar sep (xs ++ sep :: ys) = splitChar sep xs ++ splitChar sep ys := by
  induction xs with
  | nil =>
      simp only [List.nil_append, splitChar]
      cases h : splitChar sep ys with
      | nil => exact absurd h (splitChar_ne_nil sep ys)
      | cons h t => simp
  | cons c cs ih =>
      simp only [List.cons_append, splitChar]
      simp only [List.append_eq]
      rw [ih]
      cases h : splitChar sep cs with
      | nil => exact absurd h (splitChar_ne_nil sep cs)
      | cons hd tl =>
          by_cases hc : c = sep <;> simp [hc]

theorem not_mem_of_mem_splitChar {sep : Char} {l : List Char} {x : List Char}
    (hx : x ∈ splitChar sep l) : sep ∉ x := by
  induction l generalizing x with
  | nil =>
      simp only [splitChar, List.mem_singleton] at hx
      subst hx; simp
  | cons c cs ih =>
      simp only [splitChar] at hx
      cases h : splitChar sep cs with
      | nil => exact absurd h (splitChar_ne_nil sep cs)
      | cons hd tl =>
          rw [h] at hx
          by_cases hc : c = sep
          · simp only [hc, if_pos rfl] at hx
            rcases List.mem_cons.mp hx with h1 | h2
            · subst h1; simp
            · exact ih (h ▸ h2)
          · simp only [if_neg hc] at hx
            rcases List.mem_cons.mp hx with h1 | h2
            · subst h1
              intro hm
              rcases List.mem_cons.mp hm with h3 | h4
              · exact hc h3.symm
              · exact ih (h ▸ List.mem_cons_self hd tl) h4
            · exact ih (h ▸ List.mem_cons_of_mem hd h2)

theorem splitChar_of_not_mem {sep : Char} {l : List Char} (h : sep ∉ l) :
    splitChar sep l = [l] := by
  induction l with
  | nil => rfl
  | cons c cs ih =>
      have hc : ¬ c = sep := fun e => h (e ▸ List.mem_cons_self c cs)
      have hcs : sep ∉ cs := fun m => h (List.mem_cons_of_mem c m)
      simp [splitChar, ih hcs, hc]

theorem isPrefixList_refl {α : Type} [DecidableEq α] (l : List α) :
    isPrefixList l l = true := by
  induction l with
  | nil => rfl
  | cons a as ih => simp [isPrefixList, ih]

theorem isPrefixList_append {α : Type} [DecidableEq α] (l t : List α) :
    isPrefixList l (l ++ t) = true := by
  induction l with
  | nil => rfl
  | cons a as ih => simp [isPrefixList, ih]

theorem isPrefixList_trans {α : Type} [DecidableEq α] {a b c : List α}
    (h1 : isPrefixList a b = true) (h2 : isPrefixList b c = true) :
    isPrefixList a c = true := by
  induction a generalizing b c with
  | nil => rfl
  | cons x xs ih =>
      cases b with
      | nil => simp [isPrefixList] at h1
      | cons y ys =>
          cases c with
          | nil => simp [isPrefixList] at h2
          | cons z zs =>
              simp only [isPrefixList] at h1 h2 ⊢
              by_cases hxy : x = y
              · subst hxy
                by_cases hyz : x = z
                · subst hyz
                  simp only [if_pos rfl] at h1 h2 ⊢
                  exact ih h1 h2
                · rw [if_neg hyz] at h2
                  exact absurd h2 (by decide)
              · rw [if_neg hxy] at h1
                exact absurd h1 (by decide)

theorem normAux_append (acc : List (List Char)) (u v : List (List Char)) :
    normAux acc (u ++ v) = normAux (normAux acc u) v := by
  simp [normAux, List.foldl_append]

/-! ### zipfile extraction-path sanitization

`ZipFile._extract_member` (CPython) rewrites each member name before
extraction: it drops the drive/leading separators and removes every
component equal to `''`, `'.'` or `'..'`, then joins the member name
under the target directory.  `arcname` models that rewrite. -/

/-- A path component that zipfile's sanitization deletes. -/
def badComp (c : List Char) : Bool :=
  if c = [] then true
  else if c = ['.'] then true
  else if c = ['.', '.'] then true
  else false

/-- The components zipfile keeps from a member name. -/
def arcComps (name : String) : List (List Char) :=
  (splitChar '/' name.data).filter (fun c => !(badComp c))

/-- Join components back with `/` separators. -/
def joinComps : List (List Char) → List Char
  | [] => []
  | [c] => c
  | c :: c2 :: cs => c ++ '/' :: joinComps (c2 :: cs)

/-- The sanitized member name zipfile extracts to (relative to the
extraction root). -/
def arcname (name : String) : String := String.mk (joinComps (arcComps name))

example : arcname "../../etc/passwd" = "etc/passwd" := by decide
example : arcname "/etc/passwd" = "etc/passwd" := by decide
example : arcname "a/./b//c" = "a/b/c" := by decide

theorem normAux_good {cs : List (List Char)} (h : ∀ c ∈ cs, badComp c = false)
    (acc : List (List Char)) : normAux acc cs = cs.reverse ++ acc := by
  induction cs generalizing acc with
  | nil => rfl
  | cons c rest ih =>
      have hc : badComp c = false := h c (List.mem_cons_self c rest)
      have hrest : ∀ x ∈ rest, badComp x = false := fun x hx => h x (List.mem_cons_of_mem c hx)
      have h1 : ¬ c = [] := by
        intro e; rw [e] at hc; simp [badComp] at hc
      have h2 : ¬ c = ['.'] := by
        intro e; rw [e] at hc; simp [badComp] at hc
      have h3 : ¬ c = ['.', '.'] := by
        intro e; rw [e] at hc; simp [badComp] at hc
      have hstep : normStep acc c = c :: acc := by
        simp [normStep, h1, h2, h3]
      calc normAux acc (c :: rest) = normAux (normStep acc c) rest := rfl
        _ = rest.reverse ++ (c :: acc) := by rw [hstep]; exact ih hrest (c :: acc)
        _ = (c :: rest).reverse ++ acc := by simp

theorem joinComps_roundtrip {cs : List (List Char)} (hne : cs ≠ [])
    (h : ∀ c ∈ cs, '/' ∉ c) : splitChar '/' (joinComps cs) = cs := by
  induction cs with
  | nil => exact absurd rfl hne
  | cons c rest ih =>
      cases rest with
      | nil =>
          exact splitChar_of_not_mem (h c (List.mem_cons_self c []))
      | cons c2 cs2 =>
          have hr : splitChar '/' (joinComps (c2 :: cs2)) = c2 :: cs2 :=
            ih (by simp) (fun x hx => h x (List.mem_cons_of_mem c hx))
          calc splitChar '/' (joinComps (c :: c2 :: cs2))
              = splitChar '/' (c ++ '/' :: joinComps (c2 :: cs2)) := rfl
            _ = splitChar '/' c ++ splitChar '/' (joinComps (c2 :: cs2)) :=
                splitChar_append '/' c (joinComps (c2 :: cs2))
            _ = [c] ++ (c2 :: cs2) := by
                rw [splitChar_of_not_mem (h c (List.mem_cons_self c _)), hr]
            _ = c :: c2 :: cs2 := rfl

theorem mem_arcComps_good {name : String} {c : List Char} (hc : c ∈ arcComps name) :
    badComp c = false ∧ '/' ∉ c := by
  have h1 := List.mem_filter.mp hc
  refine ⟨by simpa using h1.2, not_mem_of_mem_splitChar h1.1⟩

theorem joinComps_head_ne_slash {cs : List (List Char)}
    (h : ∀ c ∈ cs, badComp c = false ∧ '/' ∉ c) :
    (joinComps cs).head? ≠ some '/' := by
  cases cs with
  | nil => simp [joinComps]
  | cons c rest =>
      have hc := h c (List.mem_cons_self c rest)
      cases hcc : c with
      | nil =>
          rw [hcc] at hc
          exact absurd hc.1 (by decide)
      | cons a t =>
          have ha : a ≠ '/' := by
            intro e
            exact hc.2 (by rw [hcc, e]; exact List.mem_cons_self _ _)
          cases rest with
          | nil => simpa [joinComps, hcc] using fun e => ha e
          | cons c2 cs2 => simpa [joinComps, hcc] using fun e => ha e

/-- Joining a non-absolute path under a root, at the level of character
data. -/
theorem joinPath_not_abs {b : String} (habs : isAbsPath b = false) (a : String) :
    joinPath a b = a ++ "/" ++ b := by
  simp [joinPath, habs]

theorem sdata_join (a b : String) : (a ++ "/" ++ b).data = a.data ++ '/' :: b.data := by
  rw [sdata_append, sdata_append]
  have h1 : ("/" : String).data = ['/'] := rfl
  rw [h1, List.append_assoc]
  rfl

/-- Core sanitization property: the path zipfile writes a member to
always resolves inside the extraction root. -/
theorem arcname_confined (ed name : String) :
    underOrEq ed (joinPath ed (arcname name)) = true := by
  by_cases hnil : arcComps name = []
  · have ha : arcname name = "" := by
      simp [arcname, hnil, joinComps]
    rw [ha, joinPath_not_abs (by decide)]
    unfold underOrEq resolve
    rw [sdata_join, splitChar_append]
    have h2 : splitChar '/' (("" : String).data) = [[]] := rfl
    rw [h2, normAux_append]
    have h3 : normAux (normAux [] (splitChar '/' ed.data)) [[]] =
        normAux [] (splitChar '/' ed.data) := rfl
    rw [h3]
    exact isPrefixList_refl _
  · have hgood : ∀ c ∈ arcComps name, badComp c = false ∧ '/' ∉ c :=
      fun c hc => mem_arcComps_good hc
    have hdataArc : (arcname name).data = joinComps (arcComps name) := rfl
    have habs : isAbsPath (arcname name) = false := by
      have h := joinComps_head_ne_slash hgood
      unfold isAbsPath
      rw [hdataArc]
      exact decide_eq_false h
    rw [joinPath_not_abs habs]
    unfold underOrEq resolve
    rw [sdata_join, hdataArc, splitChar_append]
    rw [joinComps_roundtrip hnil (fun c hc => (hgood c hc).2)]
    rw [normAux_append]
    rw [normAux_good (fun c hc => (hgood c hc).1)]
    rw [List.reverse_append, List.reverse_reverse]
    exact isPrefixList_append _ _

/-- Any relative path all of whose components survive sanitization
joins under its root (used for the fixed names `deployment.zip` and
`extracted`). -/
theorem joinPath_rel_confined (d rel : String) (habs : isAbsPath rel = false)
    (h : ∀ c ∈ splitChar '/' rel.data, badComp c = false) :
    underOrEq d (joinPath d rel) = true := by
  rw [joinPath_not_abs habs]
  unfold underOrEq resolve
  rw [sdata_join, splitChar_append, normAux_append, normAux_good h]
  rw [List.reverse_append, List.reverse_reverse]
  exact isPrefixList_append _ _

theorem underOrEq_refl (d : String) : underOrEq d d = true := isPrefixList_refl _

theorem underOrEq_trans {a b c : String} (h1 : underOrEq a b = true)
    (h2 : underOrEq b c = true) : underOrEq a c = true :=
  isPrefixList_trans h1 h2

/-! ### Program state

`PState` records the process-wide state the worker mutates: the current
working directory, the process environment, and the filesystem
(existing directories and files).  `created` is a monotone log of every
`(path, content)` write ever performed, so that "a file was created at
p" is expressible even after cleanup deletes the file. -/

structure PState where
  cwd : String
  envMap : List (String × String)
  nextTemp : Nat
  dirs : List String
  files : List String
  created : List (String × String)
deriving DecidableEq, Repr

/-- `os.environ[key] = value`. -/
def setEnv (k v : String) (s : PState) : PState :=
  { s with envMap := (k, v) :: s.envMap.filter (fun kv => decide (kv.1 ≠ k)) }

/-- The loop `for key, value in env_vars.items(): os.environ[key] = value`. -/
def applyEnvVars (env : List (String × String)) (s : PState) : PState :=
  env.foldl (fun st kv => setEnv kv.1 kv.2 st) s

/-- `open(path, 'w').write(content)`. -/
def writeFile (path content : String) (s : PState) : PState :=
  { s with files := path :: s.files, created := (path, content) :: s.created }

/-- `os.makedirs(d)`. -/
def makeDirs (d : String) (s : PState) : PState := { s with dirs := d :: s.dirs }

/-- The name `tempfile.TemporaryDirectory` hands out for the `n`-th
temporary directory of the process. -/
def tempName (n : Nat) : String := "/tmp/tmp" ++ toString n

/-- Entering `tempfile.TemporaryDirectory()`: a fresh directory appears. -/
def tempCreate (s : PState) : PState :=
  { s with nextTemp := s.nextTemp + 1, dirs := tempName s.nextTemp :: s.dirs }

/-- `shutil.rmtree(d)` (what `TemporaryDirectory.__exit__` runs): every
file and directory at or below `d` disappears. -/
def rmtree (d : String) (s : PState) : PState :=
  { s with dirs := s.dirs.filter (fun x => !(underOrEq d x)),
           files := s.files.filter (fun x => !(underOrEq d x)) }

/-! ### Faults and external behavior

Python exceptions escaping a function are modelled with `Except Fault`.
The behavior of external facilities — child processes and dynamically
loaded modules — is a `World` oracle, so every theorem quantifies over
all possible subprocess outputs and module contents. -/

inductive Fault where
  | keyError (key : String)
  | badBase64
  | badZipFile
  | timeoutExpired (seconds : Nat)
  | attributeError (name : String)
  | importError (msg : String)
  | userError (msg : String)
deriving DecidableEq, Repr

deriving instance DecidableEq for Except

/-- Python `str(e)` for the faults the worker can see. -/
def Fault.toMessage : Fault → String
  | .keyError k => "KeyError: " ++ k
  | .badBase64 => "Invalid base64-encoded string"
  | .badZipFile => "File is not a zip file"
  | .timeoutExpired t => "Command timed out after " ++ toString t ++ " seconds"
  | .attributeError n => "module object has no attribute " ++ n
  | .importError m => m
  | .userError m => m

/-- `traceback.format_exc()`, abstractly. -/
def Fault.toTraceback (e : Fault) : String :=
  "Traceback (most recent call last): " ++ e.toMessage

/-- Observable behavior of one external process: its running time in
seconds and what it would produce if allowed to finish. -/
structure ProcBehavior where
  duration : Nat
  stdout : String
  stderr : String
  returncode : Int
deriving DecidableEq, Repr

/-- The result dictionaries built by the execute_* helpers: either the
`{stdout, stderr, returncode}` of a subprocess or the
`{function_result, function_name}` of an in-process call. -/
inductive ExecResult where
  | proc (stdout stderr : String) (returncode : Int)
  | func (function_result : String) (function_name : String)
deriving DecidableEq, Repr

/-- A callable attribute of a loaded module: arbitrary user code that
may mutate process state and may raise. -/
structure PyFunc where
  run : PState → Except Fault String × PState

/-- A loaded module: its attribute table. -/
structure ModuleObj where
  attrs : String → Option PyFunc

/-- The external world: behavior of `[sys.executable, path]`,
`['node', path]` and `shell` subprocesses, and of loading a path as a
Python module. -/
structure World where
  runPython : String → ProcBehavior
  runNode : String → ProcBehavior
  runShell : String → ProcBehavior
  loadModule : String → Except Fault ModuleObj

/-- `subprocess.run(..., timeout=timeoutSecs, capture_output=True,
text=True)`: raises `TimeoutExpired` when the process outlives the
timeout, and otherwise reports stdout/stderr/exit code — an exit code
is data, never an exception. -/
def subprocessRun (timeoutSecs : Nat) (p : ProcBehavior) : Except Fault ExecResult :=
  if timeoutSecs < p.duration then .error (.timeoutExpired timeoutSecs)
  else .ok (.proc p.stdout p.stderr p.returncode)

/-! ### The worker's functions, one Lean definition per Python function -/

/-- `execute_python_script`: run `[sys.executable, script_path]` with a
30 second timeout. -/
def execute_python_script (w : World) (script_path : String) : Except Fault ExecResult :=
  subprocessRun 30 (w.runPython script_path)

/-- `execute_node_script`: run `['node', script_path]` with a 30 second
timeout. -/
def execute_node_script (w : World) (script_path : String) : Except Fault ExecResult :=
  subprocessRun 30 (w.runNode script_path)

/-- `execute_shell_command`: run the raw string through the shell with a
30 second timeout. -/
def execute_shell_command (w : World) (command : String) : Except Fault ExecResult :=
  subprocessRun 30 (w.runShell command)

/-- `execute_python_function`: load `script_path` as a module
(`exec_module` may raise), `getattr` the symbol (raises
`AttributeError` when absent), call it with no arguments. -/
def execute_python_function (w : World) (script_path function_name : String)
    (s : PState) : Except Fault ExecResult × PState :=
  match w.loadModule script_path with
  | .error e => (.error e, s)
  | .ok m =>
      match m.attrs function_name with
      | none => (.error (.attributeError function_name), s)
      | some f =>
          let r := f.run s
          match r.1 with
          | .error e => (.error e, r.2)
          | .ok v => (.ok (.func v function_name), r.2)

/-- The strategy `execute_entrypoint` selects. -/
inductive Strategy where
  | pythonScript (script_path : String)
  | pythonFunction (script_path function_name : String)
  | nodeScript (script_path : String)
  | shellCommand (command : String)
deriving DecidableEq, Repr

/-- Truthiness of Python's `function_part` (`None` and `""` are falsy). -/
def truthy : Option String → Bool
  | none => false
  | some s => decide (s ≠ "")

/-- `entrypoint.split(':', 1)` guarded by `':' in entrypoint`:
the script part and the optional function part. -/
def parseEntrypoint (e : String) : String × Option String :=
  match splitFirst ':' e.data with
  | some (a, b) => (String.mk a, some (String.mk b))
  | none => (e, none)

/-- The dispatch chain of `execute_entrypoint` (lines 150–169 of the
source): extension checks on the script part, shell fallback on the
whole entrypoint string. -/
def chooseStrategy (entrypoint : String) : Strategy :=
  let parts := parseEntrypoint entrypoint
  let script_part := parts.1
  let function_part := parts.2
  if endsWithStr script_part ".py" then
    if truthy function_part then
      .pythonFunction script_part (function_part.getD "")
    else
      .pythonScript script_part
  else if endsWithStr script_part ".js" || endsWithStr script_part ".ts" then
    .nodeScript script_part
  else
    .shellCommand entrypoint

example : chooseStrategy "a.py" = .pythonScript "a.py" := by decide
example : chooseStrategy "a.py:run" = .pythonFunction "a.py" "run" := by decide
example : chooseStrategy "a.js" = .nodeScript "a.js" := by decide
example : chooseStrategy "echo hi" = .shellCommand "echo hi" := by decide
example : chooseStrategy "a.py:" = .pythonScript "a.py" := by decide
example : chooseStrategy "run.sh:main" = .shellCommand "run.sh:main" := by decide
example : chooseStrategy "a.js:f" = .nodeScript "a.js" := by decide

/-- Run a selected strategy (the body of the dispatch). -/
def runStrategy (w : World) (st : Strategy) (s : PState) :
    Except Fault ExecResult × PState :=
  match st with
  | .pythonScript p => (execute_python_script w p, s)
  | .pythonFunction p f => execute_python_function w p f s
  | .nodeScript p => (execute_node_script w p, s)
  | .shellCommand c => (execute_shell_command w c, s)

/-- The outcome dictionaries the worker returns (union of the keys of
all `return {...}` sites). -/
inductive Status where
  | COMPLETED
  | FAILED
deriving DecidableEq, Repr

structure Outcome where
  status : Status
  message : Option String := none
  error : Option String := none
  files : Option (List String) := none
  result : Option ExecResult := none
  workdir : Option String := none
  content_preview : Option String := none
  filename : Option String := none
  entrypoint : Option String := none
  traceback : Option String := none
deriving DecidableEq, Repr

/-- `execute_entrypoint`: save the cwd, `os.chdir(workdir)`, dispatch on
the parsed entrypoint, restore the cwd and wrap the result in a
COMPLETED outcome; on any exception restore the cwd and re-raise. -/
def execute_entrypoint (w : World) (entrypoint workdir : String)
    (files : List String) (s : PState) : Except Fault Outcome × PState :=
  let original_cwd := s.cwd
  let rs := runStrategy w (chooseStrategy entrypoint) { s with cwd := workdir }
  match rs.1 with
  | .ok result =>
      (.ok { status := .COMPLETED,
             message := some ("Entrypoint " ++ entrypoint ++ " executed successfully"),
             entrypoint := some entrypoint,
             files := some files,
             result := some result },
       { rs.2 with cwd := original_cwd })
  | .error e => (.error e, { rs.2 with cwd := original_cwd })

/-- `with tempfile.TemporaryDirectory() as temp_dir:` — run the body on
a fresh directory and remove the tree on every exit path, exceptional
or not. -/
def withTempDir {α : Type} (s : PState)
    (body : String → PState → Except Fault α × PState) : Except Fault α × PState :=
  let d := tempName s.nextTemp
  let rs := body d (tempCreate s)
  (rs.1, rmtree d rs.2)

structure ZipEntry where
  name : String
  content : String
deriving DecidableEq, Repr

/-- The payload of the `artifact` field once its two decoding stages are
taken into account: invalid base64 (b64decode raises), valid base64
that is not a zip (ZipFile raises), or a zip with its entry list. -/
inductive ArtifactPayload where
  | invalidBase64
  | notAZip
  | zip (entries : List ZipEntry)
deriving DecidableEq, Repr

/-- The input event dictionary. -/
structure Event where
  artifact : Option ArtifactPayload := none
  file : Option String := none
  filename : Option String := none
  entrypoint : Option String := none
  env : List (String × String) := []

/-- `zip_ref.extractall(extract_dir)`: write each member at its
sanitized path under the extraction root. -/
def extractAll (extract_dir : String) (entries : List ZipEntry) (s : PState) : PState :=
  entries.foldl (fun st e => writeFile (joinPath extract_dir (arcname e.name)) e.content st) s

/-- The relative paths `os.walk` reports after extraction. -/
def extractedFiles (entries : List ZipEntry) : List String :=
  entries.map (fun e => arcname e.name)

/-- `file_content[:200]`. -/
def takePreview (c : String) : String := String.mk (c.data.take 200)

/-- `handle_artifact_deployment`: inside a temporary directory, decode
the artifact, write `deployment.zip`, extract into `extracted/`, then
run the entrypoint if present. -/
def handle_artifact_deployment (w : World) (event : Event) (s : PState) :
    Except Fault Outcome × PState :=
  withTempDir s (fun temp_dir st =>
    match event.artifact with
    | none => (.error (.keyError "artifact"), st)
    | some .invalidBase64 => (.error .badBase64, st)
    | some .notAZip =>
        let st1 := writeFile (joinPath temp_dir "deployment.zip") "artifact-bytes" st
        (.error .badZipFile, st1)
    | some (.zip entries) =>
        let st1 := writeFile (joinPath temp_dir "deployment.zip") "artifact-bytes" st
        let extract_dir := joinPath temp_dir "extracted"
        let st2 := makeDirs extract_dir st1
        let st3 := extractAll extract_dir entries st2
        let files := extractedFiles entries
        match event.entrypoint with
        | some ep => execute_entrypoint w ep extract_dir files st3
        | none =>
            (.ok { status := .COMPLETED,
                   message := some "Artifact deployed successfully",
                   files := some files,
                   workdir := some extract_dir }, st3))

/-- `handle_file_deployment`: read `file` (KeyError when absent — the
caller has checked), default the filename, write the file inside a
temporary directory, then run the entrypoint if present. -/
def handle_file_deployment (w : World) (event : Event) (s : PState) :
    Except Fault Outcome × PState :=
  match event.file with
  | none => (.error (.keyError "file"), s)
  | some file_content =>
      let filename := event.filename.getD "deployed_file.txt"
      withTempDir s (fun temp_dir st =>
        let st1 := writeFile (joinPath temp_dir filename) file_content st
        match event.entrypoint with
        | some ep => execute_entrypoint w ep temp_dir [filename] st1
        | none =>
            (.ok { status := .COMPLETED,
                   message := some ("File " ++ filename ++ " deployed successfully"),
                   content_preview := some (takePreview file_content),
                   filename := some filename }, st1))

/-- The payload dispatch inside `runpod_handler`'s `try:` block. -/
def dispatchPayload (w : World) (event : Event) (s : PState) :
    Except Fault Outcome × PState :=
  if event.artifact.isSome then handle_artifact_deployment w event s
  else if event.file.isSome then handle_file_deployment w event s
  else (.ok { status := .FAILED,
              error := some "No artifact or file provided in deployment" }, s)

/-- `runpod_handler`: apply the env vars, dispatch on the payload, and
convert any exception into a FAILED outcome dictionary.  The Lean type
`Outcome × PState` (no `Except`) is the "never propagates" guarantee. -/
def runpod_handler (w : World) (event : Event) (s : PState) : Outcome × PState :=
  let s0 := applyEnvVars event.env s
  let rs := dispatchPayload w event s0
  match rs.1 with
  | .ok outcome => (outcome, rs.2)
  | .error e =>
      ({ status := .FAILED,
         error := some ("Deployment error: " ++ e.toMessage),
         traceback := some e.toTraceback }, rs.2)

/-- A convenient initial state and world for concrete evaluations. -/
def initState : PState :=
  { cwd := "/", envMap := [], nextTemp := 0, dirs := [], files := [], created := [] }

def quietProc : ProcBehavior := { duration := 0, stdout := "", stderr := "", returncode := 0 }

def emptyWorld : World :=
  { runPython := fun _ => quietProc,
    runNode := fun _ => quietProc,
    runShell := fun _ => quietProc,
    loadModule := fun _ => .error (.importError "No module") }

example :
    (runpod_handler emptyWorld { file := some "print(1)", filename := some "t.py" }
      initState).1.status = Status.COMPLETED := by decide

example :
    (runpod_handler emptyWorld {} initState).1.status = Status.FAILED := by decide

example :
    (runpod_handler emptyWorld { artifact := some .invalidBase64 } initState).1.error =
      some "Deployment error: Invalid base64-encoded string" := by decide

/-! ### Lemmas about entrypoint parsing and dispatch -/

theorem parse_of_noColon {e : String} (h : hasColon e = false) :
    parseEntrypoint e = (e, none) := by
  unfold parseEntrypoint
  rw [splitFirst_of_not_mem (containsChar_eq_false_iff.mp h)]

theorem sdata_colon (a b : String) : (a ++ ":" ++ b).data = a.data ++ ':' :: b.data := by
  rw [sdata_append, sdata_append]
  have h1 : (":" : String).data = [':'] := rfl
  rw [h1, List.append_assoc]
  rfl

theorem parse_of_colon {a : String} (b : String) (h : hasColon a = false) :
    parseEntrypoint (a ++ ":" ++ b) = (a, some b) := by
  unfold parseEntrypoint
  rw [sdata_colon, splitFirst_append b.data (containsChar_eq_false_iff.mp h)]

theorem parse_trailing_colon {a : String} (h : hasColon a = false) :
    parseEntrypoint (a ++ ":") = (a, some "") := by
  unfold parseEntrypoint
  have hd : (a ++ ":").data = a.data ++ ':' :: [] := by
    rw [sdata_append]
  rw [hd, splitFirst_append [] (containsChar_eq_false_iff.mp h)]

theorem isPrefixList_head {α : Type} [DecidableEq α] {x y : α} {xs ys l : List α}
    (hxy : x ≠ y) (h : isPrefixList (x :: xs) l = true) :
    isPrefixList (y :: ys) l = false := by
  cases l with
  | nil => simp [isPrefixList] at h
  | cons b bs =>
      simp only [isPrefixList] at h ⊢
      by_cases hxb : x = b
      · subst hxb
        rw [if_neg (fun e => hxy e.symm)]
      · rw [if_neg hxb] at h
        exact absurd h (by decide)

theorem js_not_py {e : String} (h : endsWithStr e ".js" = true) :
    endsWithStr e ".py" = false := by
  unfold endsWithStr startsWithChars at h ⊢
  have h1 : (".js" : String).data.reverse = ['s', 'j', '.'] := by decide
  have h2 : (".py" : String).data.reverse = ['y', 'p', '.'] := by decide
  rw [h1] at h
  rw [h2]
  exact isPrefixList_head (by decide) h

theorem ts_not_py {e : String} (h : endsWithStr e ".ts" = true) :
    endsWithStr e ".py" = false := by
  unfold endsWithStr startsWithChars at h ⊢
  have h1 : (".ts" : String).data.reverse = ['s', 't', '.'] := by decide
  have h2 : (".py" : String).data.reverse = ['y', 'p', '.'] := by decide
  rw [h1] at h
  rw [h2]
  exact isPrefixList_head (by decide) h

theorem choose_py_script {e : String} (hc : hasColon e = false)
    (hpy : endsWithStr e ".py" = true) : chooseStrategy e = .pythonScript e := by
  unfold chooseStrategy
  rw [parse_of_noColon hc]
  simp [truthy, hpy]

theorem choose_py_function {a : String} (b : String) (hc : hasColon a = false)
    (hpy : endsWithStr a ".py" = true) (hb : b ≠ "") :
    chooseStrategy (a ++ ":" ++ b) = .pythonFunction a b := by
  unfold chooseStrategy
  rw [parse_of_colon b hc]
  simp [truthy, hpy, hb]

theorem choose_trailing_colon {a : String} (hc : hasColon a = false)
    (hpy : endsWithStr a ".py" = true) :
    chooseStrategy (a ++ ":") = .pythonScript a := by
  unfold chooseStrategy
  rw [parse_trailing_colon hc]
  simp [truthy, hpy]

theorem choose_node {e : String} (hc : hasColon e = false)
    (hjs : endsWithStr e ".js" = true ∨ endsWithStr e ".ts" = true) :
    chooseStrategy e = .nodeScript e := by
  have hpy : endsWithStr e ".py" = false := by
    rcases hjs with h | h
    · exact js_not_py h
    · exact ts_not_py h
  unfold chooseStrategy
  rw [parse_of_noColon hc]
  rcases hjs with h | h <;> simp [truthy, hpy, h]

theorem choose_shell {e : String} (hc : hasColon e = false)
    (hpy : endsWithStr e ".py" = false) (hjs : endsWithStr e ".js" = false)
    (hts : endsWithStr e ".ts" = false) : chooseStrategy e = .shellCommand e := by
  unfold chooseStrategy
  rw [parse_of_noColon hc]
  simp [hpy, hjs, hts]

theorem choose_node_colon {a : String} (b : String) (hc : hasColon a = false)
    (hjs : endsWithStr a ".js" = true ∨ endsWithStr a ".ts" = true) :
    chooseStrategy (a ++ ":" ++ b) = .nodeScript a := by
  have hpy : endsWithStr a ".py" = false := by
    rcases hjs with h | h
    · exact js_not_py h
    · exact ts_not_py h
  unfold chooseStrategy
  rw [parse_of_colon b hc]
  rcases hjs with h | h <;> simp [truthy, hpy, h]

theorem choose_shell_colon {a : String} (b : String) (hc : hasColon a = false)
    (hpy : endsWithStr a ".py" = false) (hjs : endsWithStr a ".js" = false)
    (hts : endsWithStr a ".ts" = false) :
    chooseStrategy (a ++ ":" ++ b) = .shellCommand (a ++ ":" ++ b) := by
  unfold chooseStrategy
  rw [parse_of_colon b hc]
  simp [hpy, hjs, hts]

/-! ### Lemmas about the execution pipeline -/

theorem execute_entrypoint_ok {w : World} {ep wd : String} {files : List String}
    {s : PState} {r : ExecResult}
    (h : (runStrategy w (chooseStrategy ep) { s with cwd := wd }).1 = .ok r) :
    (execute_entrypoint w ep wd files s).1 =
      .ok { status := .COMPLETED,
            message := some ("Entrypoint " ++ ep ++ " executed successfully"),
            entrypoint := some ep,
            files := some files,
            result := some r } := by
  simp only [execute_entrypoint]
  rw [h]

theorem execute_entrypoint_err {w : World} {ep wd : String} {files : List String}
    {s : PState} {e : Fault}
    (h : (runStrategy w (chooseStrategy ep) { s with cwd := wd }).1 = .error e) :
    (execute_entrypoint w ep wd files s).1 = .error e := by
  simp only [execute_entrypoint]
  rw [h]

theorem handler_of_dispatch_ok {w : World} {event : Event} {s : PState} {o : Outcome}
    (h : (dispatchPayload w event (applyEnvVars event.env s)).1 = .ok o) :
    (runpod_handler w event s).1 = o := by
  simp only [runpod_handler]
  rw [h]

theorem handler_of_dispatch_err {w : World} {event : Event} {s : PState} {e : Fault}
    (h : (dispatchPayload w event (applyEnvVars event.env s)).1 = .error e) :
    (runpod_handler w event s).1 =
      { status := .FAILED,
        error := some ("Deployment error: " ++ e.toMessage),
        traceback := some e.toTraceback } := by
  simp only [runpod_handler]
  rw [h]

/-- With a file payload, a filename and an entrypoint, the dispatch
boils down to `execute_entrypoint` on the freshly written file. -/
theorem dispatch_file_ep {w : World} {event : Event} {s : PState} {c fn ep : String}
    (h1 : event.artifact = none) (h2 : event.file = some c)
    (h3 : event.filename = some fn) (h4 : event.entrypoint = some ep) :
    (dispatchPayload w event s).1 =
      (execute_entrypoint w ep (tempName s.nextTemp) [fn]
        (writeFile (joinPath (tempName s.nextTemp) fn) c (tempCreate s))).1 := by
  simp only [dispatchPayload, handle_file_deployment, withTempDir, h1, h2, h3, h4,
    Option.isSome_none, Option.isSome_some, Option.getD_some, Bool.false_eq_true,
    if_false, if_true]

theorem not_mem_rmtree_self (d : String) (s : PState) : d ∉ (rmtree d s).dirs := by
  intro h
  have h1 := List.mem_filter.mp h
  rw [underOrEq_refl] at h1
  exact absurd h1.2 (by decide)

theorem withTempDir_dirs {α : Type} (s : PState)
    (body : String → PState → Except Fault α × PState) :
    tempName s.nextTemp ∉ ((withTempDir s body).2).dirs :=
  not_mem_rmtree_self _ _

/-! ### The claims -/

/-- C3: entrypoint dispatch splits on the first `:` and selects the
strategy from the script part's extension — `.py` without a symbol runs
as an external Python process, `.py` with a non-empty symbol runs the
named function in-process, `.js`/`.ts` run via node, and anything else
runs as a shell command. -/
theorem dispatch_by_extension :
    (∀ e, hasColon e = false → endsWithStr e ".py" = true →
        chooseStrategy e = .pythonScript e) ∧
    (∀ a b, hasColon a = false → endsWithStr a ".py" = true → b ≠ "" →
        chooseStrategy (a ++ ":" ++ b) = .pythonFunction a b) ∧
    (∀ e, hasColon e = false →
        (endsWithStr e ".js" = true ∨ endsWithStr e ".ts" = true) →
        chooseStrategy e = .nodeScript e) ∧
    (∀ e, hasColon e = false → endsWithStr e ".py" = false →
        endsWithStr e ".js" = false → endsWithStr e ".ts" = false →
        chooseStrategy e = .shellCommand e) :=
  ⟨fun _ hc hpy => choose_py_script hc hpy,
   fun _ b hc hpy hb => choose_py_function b hc hpy hb,
   fun _ hc hjs => choose_node hc hjs,
   fun _ hc hpy hjs hts => choose_shell hc hpy hjs hts⟩

/-- Witness for C3 at the four concrete entrypoints of the spec. -/
theorem dispatch_by_extension_witness :
    chooseStrategy "a.py" = .pythonScript "a.py" ∧
    chooseStrategy ("a.py" ++ ":" ++ "run") = .pythonFunction "a.py" "run" ∧
    chooseStrategy "a.js" = .nodeScript "a.js" ∧
    chooseStrategy "echo hi" = .shellCommand "echo hi" :=
  ⟨dispatch_by_extension.1 "a.py" (by decide) (by decide),
   dispatch_by_extension.2.1 "a.py" "run" (by decide) (by decide) (by decide),
   dispatch_by_extension.2.2.1 "a.js" (by decide) (Or.inl (by decide)),
   dispatch_by_extension.2.2.2 "echo hi" (by decide) (by decide) (by decide) (by decide)⟩

/-- C10: a Python entrypoint with a trailing `:` (empty symbol) is
dispatched to the external-interpreter strategy, because Python's
truthiness test `if function_part:` treats `""` as absent. -/
theorem empty_symbol_runs_script (a : String) (hc : hasColon a = false)
    (hpy : endsWithStr a ".py" = true) :
    chooseStrategy (a ++ ":") = .pythonScript a :=
  choose_trailing_colon hc hpy

/-- Witness for C10 at `"a.py:"`. -/
theorem empty_symbol_runs_script_witness :
    chooseStrategy ("a.py" ++ ":") = .pythonScript "a.py" :=
  empty_symbol_runs_script "a.py" (by decide) (by decide)

/-- C8 fails as stated: for an entrypoint that falls through to the
shell strategy, the `:symbol` suffix is NOT ignored — the full string
`"run.sh:main"` is what gets executed, which differs from the strategy
selected for `"run.sh"`. -/
theorem shell_suffix_not_ignored :
    chooseStrategy "run.sh:main" = .shellCommand "run.sh:main" ∧
    chooseStrategy "run.sh" = .shellCommand "run.sh" ∧
    chooseStrategy "run.sh:main" ≠ chooseStrategy "run.sh" := by
  refine ⟨by decide, by decide, by decide⟩

/-- C8 amended: a `:symbol` suffix on a `.js`/`.ts` entrypoint is
dropped (the strategy is the same as without the suffix), but on any
other non-Python entrypoint the shell strategy receives the whole
original string, suffix included. -/
theorem nonpython_suffix_handling :
    (∀ a b, hasColon a = false →
        (endsWithStr a ".js" = true ∨ endsWithStr a ".ts" = true) →
        chooseStrategy (a ++ ":" ++ b) = .nodeScript a ∧
        chooseStrategy (a ++ ":" ++ b) = chooseStrategy a) ∧
    (∀ a b, hasColon a = false → endsWithStr a ".py" = false →
        endsWithStr a ".js" = false → endsWithStr a ".ts" = false →
        chooseStrategy (a ++ ":" ++ b) = .shellCommand (a ++ ":" ++ b)) :=
  ⟨fun a b hc hjs =>
    ⟨choose_node_colon b hc hjs, by rw [choose_node_colon b hc hjs, choose_node hc hjs]⟩,
   fun a b hc hpy hjs hts => choose_shell_colon b hc hpy hjs hts⟩

/-- Witness for the amended C8 at `"a.js:f"` and `"run.sh:main"`. -/
theorem nonpython_suffix_handling_witness :
    (chooseStrategy ("a.js" ++ ":" ++ "f") = .nodeScript "a.js" ∧
     chooseStrategy ("a.js" ++ ":" ++ "f") = chooseStrategy "a.js") ∧
    chooseStrategy ("run.sh" ++ ":" ++ "main") = .shellCommand ("run.sh" ++ ":" ++ "main") :=
  ⟨nonpython_suffix_handling.1 "a.js" "f" (by decide) (Or.inl (by decide)),
   nonpython_suffix_handling.2 "run.sh" "main" (by decide) (by decide) (by decide) (by decide)⟩

/-- C2: the handler always returns a structured outcome whose status is
COMPLETED or FAILED; any fault raised by payload handling or entrypoint
execution is converted into a FAILED outcome carrying the error
description.  (That `runpod_handler` returns `Outcome × PState` rather
than `Except Fault _` is the embedding of "never propagates".) -/
theorem handler_structured_outcome (w : World) (event : Event) (s : PState) :
    ((runpod_handler w event s).1.status = .COMPLETED ∨
     (runpod_handler w event s).1.status = .FAILED) ∧
    (∀ e, (dispatchPayload w event (applyEnvVars event.env s)).1 = .error e →
        (runpod_handler w event s).1.status = .FAILED ∧
        (runpod_handler w event s).1.error =
          some ("Deployment error: " ++ Fault.toMessage e)) := by
  constructor
  · cases h : (runpod_handler w event s).1.status
    · exact Or.inl rfl
    · exact Or.inr rfl
  · intro e he
    rw [handler_of_dispatch_err he]
    exact ⟨rfl, rfl⟩

/-- Witness for C2: an artifact that fails base64 decoding yields a
FAILED outcome with the formatted error string. -/
theorem handler_structured_outcome_witness :
    (runpod_handler emptyWorld { artifact := some .invalidBase64 } initState).1.status =
      .FAILED ∧
    (runpod_handler emptyWorld { artifact := some .invalidBase64 } initState).1.error =
      some ("Deployment error: " ++ Fault.toMessage .badBase64) :=
  (handler_structured_outcome emptyWorld { artifact := some .invalidBase64 } initState).2
    Fault.badBase64 (by decide)

/-- C7: `execute_entrypoint` changes the process cwd to the request's
working directory only for the duration of the dispatch (the strategy
runs in a state whose cwd is `wd`), and the prior cwd is restored on
every exit — also when the strategy raises, in which case the fault is
re-raised unchanged. -/
theorem cwd_restored_on_every_exit (w : World) (ep wd : String)
    (files : List String) (s : PState) :
    ((execute_entrypoint w ep wd files s).2).cwd = s.cwd ∧
    (∀ e, (runStrategy w (chooseStrategy ep) { s with cwd := wd }).1 = .error e →
        (execute_entrypoint w ep wd files s).1 = .error e) := by
  constructor
  · simp only [execute_entrypoint]
    cases h : (runStrategy w (chooseStrategy ep) { s with cwd := wd }).1 <;> simp [h]
  · intro e he
    exact execute_entrypoint_err he

/-- Witness for C7: a faulting in-process strategy still restores the
cwd and re-raises ImportError. -/
theorem cwd_restored_on_every_exit_witness :
    ((execute_entrypoint emptyWorld "m.py:f" "/tmp/tmp0" []
        { initState with cwd := "/home" }).2).cwd = "/home" ∧
    (execute_entrypoint emptyWorld "m.py:f" "/tmp/tmp0" []
        { initState with cwd := "/home" }).1 = .error (.importError "No module") :=
  ⟨(cwd_restored_on_every_exit emptyWorld "m.py:f" "/tmp/tmp0" []
      { initState with cwd := "/home" }).1,
   (cwd_restored_on_every_exit emptyWorld "m.py:f" "/tmp/tmp0" []
      { initState with cwd := "/home" }).2 (.importError "No module") (by decide)⟩

/-- C6: for every request (any payload, any world, success or fault),
the per-request temporary directory exists in the state the handler
body runs in, and is gone from the final state of both handlers. -/
theorem workdir_lifecycle (w : World) (event : Event) (s : PState)
    (hfresh : tempName s.nextTemp ∉ s.dirs) :
    tempName s.nextTemp ∈ (tempCreate s).dirs ∧
    tempName s.nextTemp ∉ ((handle_artifact_deployment w event s).2).dirs ∧
    tempName s.nextTemp ∉ ((handle_file_deployment w event s).2).dirs := by
  refine ⟨List.mem_cons_self _ _, withTempDir_dirs s _, ?_⟩
  cases hf : event.file with
  | none => simpa [handle_file_deployment, hf] using hfresh
  | some c =>
      simp only [handle_file_deployment, hf]
      exact withTempDir_dirs s _

/-- Witness for C6 on a concrete artifact request. -/
theorem workdir_lifecycle_witness :
    tempName initState.nextTemp ∈ (tempCreate initState).dirs ∧
    tempName initState.nextTemp ∉
      ((handle_artifact_deployment emptyWorld
          { artifact := some (.zip [{ name := "a.txt", content := "hi" }]) }
          initState).2).dirs ∧
    tempName initState.nextTemp ∉
      ((handle_file_deployment emptyWorld
          { artifact := some (.zip [{ name := "a.txt", content := "hi" }]) }
          initState).2).dirs :=
  workdir_lifecycle emptyWorld
    { artifact := some (.zip [{ name := "a.txt", content := "hi" }]) }
    initState (by decide)

/-- C9 fails as stated: a request with `file` but no `filename` is not
rejected — the worker silently defaults the filename to
`deployed_file.txt` and completes. -/
theorem missing_filename_not_rejected :
    (runpod_handler emptyWorld { file := some "data" } initState).1.status = .COMPLETED ∧
    (runpod_handler emptyWorld { file := some "data" } initState).1.filename =
      some "deployed_file.txt" ∧
    (runpod_handler emptyWorld { file := some "data" } initState).1.error = none := by
  refine ⟨by decide, by decide, by decide⟩

/-- C9 amended: when `file` is present and `filename` absent, the
filename defaults to `deployed_file.txt`; the request proceeds and
completes, writing the content at the defaulted name. -/
theorem missing_filename_defaults (w : World) (s : PState) (c : String) :
    (runpod_handler w { file := some c } s).1.status = .COMPLETED ∧
    (runpod_handler w { file := some c } s).1.filename = some "deployed_file.txt" ∧
    (joinPath (tempName s.nextTemp) "deployed_file.txt", c) ∈
      ((runpod_handler w { file := some c } s).2).created := by
  refine ⟨?_, ?_, ?_⟩ <;>
    simp [runpod_handler, applyEnvVars, dispatchPayload, handle_file_deployment,
      withTempDir, writeFile, tempCreate, rmtree]

/-- C4: for every subprocess strategy a non-zero exit code is data, not
a fault — the outcome is COMPLETED with the exit code verbatim in
`result.returncode` — while a module-load failure or a missing symbol in
the in-process strategy is fatal and the outcome is FAILED. -/
theorem exit_code_is_data (w : World) (event : Event) (s : PState)
    (c fn ep p : String)
    (h1 : event.artifact = none) (h2 : event.file = some c)
    (h3 : event.filename = some fn) (h4 : event.entrypoint = some ep) :
    (chooseStrategy ep = .pythonScript p → (w.runPython p).duration ≤ 30 →
        (runpod_handler w event s).1.status = .COMPLETED ∧
        (runpod_handler w event s).1.result =
          some (.proc (w.runPython p).stdout (w.runPython p).stderr
            (w.runPython p).returncode)) ∧
    (chooseStrategy ep = .nodeScript p → (w.runNode p).duration ≤ 30 →
        (runpod_handler w event s).1.status = .COMPLETED ∧
        (runpod_handler w event s).1.result =
          some (.proc (w.runNode p).stdout (w.runNode p).stderr
            (w.runNode p).returncode)) ∧
    (chooseStrategy ep = .shellCommand p → (w.runShell p).duration ≤ 30 →
        (runpod_handler w event s).1.status = .COMPLETED ∧
        (runpod_handler w event s).1.result =
          some (.proc (w.runShell p).stdout (w.runShell p).stderr
            (w.runShell p).returncode)) ∧
    (∀ f e, chooseStrategy ep = .pythonFunction p f →
        w.loadModule p = .error e →
        (runpod_handler w event s).1.status = .FAILED ∧
        (runpod_handler w event s).1.error =
          some ("Deployment error: " ++ e.toMessage)) ∧
    (∀ f m, chooseStrategy ep = .pythonFunction p f →
        w.loadModule p = .ok m → m.attrs f = none →
        (runpod_handler w event s).1.status = .FAILED ∧
        (runpod_handler w event s).1.error =
          some ("Deployment error: " ++ Fault.toMessage (.attributeError f))) := by
  refine ⟨?_, ?_, ?_, ?_, ?_⟩
  · intro hcs hdur
    have hok : ∀ st : PState, (runStrategy w (chooseStrategy ep) st).1 =
        .ok (.proc (w.runPython p).stdout (w.runPython p).stderr
          (w.runPython p).returncode) := by
      intro st
      rw [hcs]
      simp only [runStrategy, execute_python_script, subprocessRun]
      rw [if_neg (by omega)]
    have hd := dispatch_file_ep (w := w) (s := applyEnvVars event.env s) h1 h2 h3 h4
    rw [execute_entrypoint_ok (hok _)] at hd
    rw [handler_of_dispatch_ok hd]
    exact ⟨rfl, rfl⟩
  · intro hcs hdur
    have hok : ∀ st : PState, (runStrategy w (chooseStrategy ep) st).1 =
        .ok (.proc (w.runNode p).stdout (w.runNode p).stderr
          (w.runNode p).returncode) := by
      intro st
      rw [hcs]
      simp only [runStrategy, execute_node_script, subprocessRun]
      rw [if_neg (by omega)]
    have hd := dispatch_file_ep (w := w) (s := applyEnvVars event.env s) h1 h2 h3 h4
    rw [execute_entrypoint_ok (hok _)] at hd
    rw [handler_of_dispatch_ok hd]
    exact ⟨rfl, rfl⟩
  · intro hcs hdur
    have hok : ∀ st : PState, (runStrategy w (chooseStrategy ep) st).1 =
        .ok (.proc (w.runShell p).stdout (w.runShell p).stderr
          (w.runShell p).returncode) := by
      intro st
      rw [hcs]
      simp only [runStrategy, execute_shell_command, subprocessRun]
      rw [if_neg (by omega)]
    have hd := dispatch_file_ep (w := w) (s := applyEnvVars event.env s) h1 h2 h3 h4
    rw [execute_entrypoint_ok (hok _)] at hd
    rw [handler_of_dispatch_ok hd]
    exact ⟨rfl, rfl⟩
  · intro f e hcs hload
    have herr : ∀ st : PState, (runStrategy w (chooseStrategy ep) st).1 = .error e := by
      intro st
      rw [hcs]
      simp only [runStrategy, execute_python_function, hload]
    have hd := dispatch_file_ep (w := w) (s := applyEnvVars event.env s) h1 h2 h3 h4
    rw [execute_entrypoint_err (herr _)] at hd
    rw [handler_of_dispatch_err hd]
    exact ⟨rfl, rfl⟩
  · intro f m hcs hload hattr
    have herr : ∀ st : PState, (runStrategy w (chooseStrategy ep) st).1 =
        .error (.attributeError f) := by
      intro st
      rw [hcs]
      simp only [runStrategy, execute_python_function, hload, hattr]
    have hd := dispatch_file_ep (w := w) (s := applyEnvVars event.env s) h1 h2 h3 h4
    rw [execute_entrypoint_err (herr _)] at hd
    rw [handler_of_dispatch_err hd]
    exact ⟨rfl, rfl⟩

/-- A world whose Python subprocesses exit with code 1. -/
def exitOneWorld : World :=
  { emptyWorld with
    runPython := fun _ => { duration := 0, stdout := "out", stderr := "", returncode := 1 } }

/-- A world whose modules load but export no attributes. -/
def noAttrWorld : World :=
  { emptyWorld with loadModule := fun _ => .ok { attrs := fun _ => none } }

/-- Witness for C4: exit code 1 still COMPLETED with
`result.returncode == 1`; a missing symbol is FAILED. -/
theorem exit_code_is_data_witness :
    ((runpod_handler exitOneWorld
        { file := some "x", filename := some "t.py", entrypoint := some "t.py" }
        initState).1.status = .COMPLETED ∧
     (runpod_handler exitOneWorld
        { file := some "x", filename := some "t.py", entrypoint := some "t.py" }
        initState).1.result = some (.proc "out" "" 1)) ∧
    ((runpod_handler noAttrWorld
        { file := some "x", filename := some "t.py", entrypoint := some ("t.py" ++ ":" ++ "f") }
        initState).1.status = .FAILED ∧
     (runpod_handler noAttrWorld
        { file := some "x", filename := some "t.py", entrypoint := some ("t.py" ++ ":" ++ "f") }
        initState).1.error =
       some ("Deployment error: " ++ Fault.toMessage (.attributeError "f"))) := by
  constructor
  · exact (exit_code_is_data exitOneWorld
      { file := some "x", filename := some "t.py", entrypoint := some "t.py" }
      initState "x" "t.py" "t.py" "t.py" rfl rfl rfl rfl).1 (by decide) (by decide)
  · exact (exit_code_is_data noAttrWorld
      { file := some "x", filename := some "t.py", entrypoint := some ("t.py" ++ ":" ++ "f") }
      initState "x" "t.py" ("t.py" ++ ":" ++ "f") "t.py" rfl rfl rfl rfl).2.2.2.2
      "f" { attrs := fun _ => none } (by decide) rfl rfl

/-- C5: every subprocess strategy runs under a hard 30-second timeout;
a subprocess exceeding it raises TimeoutExpired and the request's
outcome is FAILED, carrying the 30-second timeout in the message. -/
theorem subprocess_timeout (w : World) (event : Event) (s : PState)
    (c fn ep p : String)
    (h1 : event.artifact = none) (h2 : event.file = some c)
    (h3 : event.filename = some fn) (h4 : event.entrypoint = some ep) :
    (chooseStrategy ep = .pythonScript p → 30 < (w.runPython p).duration →
        (runpod_handler w event s).1.status = .FAILED ∧
        (runpod_handler w event s).1.error =
          some ("Deployment error: " ++ Fault.toMessage (.timeoutExpired 30))) ∧
    (chooseStrategy ep = .nodeScript p → 30 < (w.runNode p).duration →
        (runpod_handler w event s).1.status = .FAILED ∧
        (runpod_handler w event s).1.error =
          some ("Deployment error: " ++ Fault.toMessage (.timeoutExpired 30))) ∧
    (chooseStrategy ep = .shellCommand p → 30 < (w.runShell p).duration →
        (runpod_handler w event s).1.status = .FAILED ∧
        (runpod_handler w event s).1.error =
          some ("Deployment error: " ++ Fault.toMessage (.timeoutExpired 30))) := by
  refine ⟨?_, ?_, ?_⟩
  · intro hcs hdur
    have herr : ∀ st : PState, (runStrategy w (chooseStrategy ep) st).1 =
        .error (.timeoutExpired 30) := by
      intro st
      rw [hcs]
      simp only [runStrategy, execute_python_script, subprocessRun]
      rw [if_pos hdur]
    have hd := dispatch_file_ep (w := w) (s := applyEnvVars event.env s) h1 h2 h3 h4
    rw [execute_entrypoint_err (herr _)] at hd
    rw [handler_of_dispatch_err hd]
    exact ⟨rfl, rfl⟩
  · intro hcs hdur
    have herr : ∀ st : PState, (runStrategy w (chooseStrategy ep) st).1 =
        .error (.timeoutExpired 30) := by
      intro st
      rw [hcs]
      simp only [runStrategy, execute_node_script, subprocessRun]
      rw [if_pos hdur]
    have hd := dispatch_file_ep (w := w) (s := applyEnvVars event.env s) h1 h2 h3 h4
    rw [execute_entrypoint_err (herr _)] at hd
    rw [handler_of_dispatch_err hd]
    exact ⟨rfl, rfl⟩
  · intro hcs hdur
    have herr : ∀ st : PState, (runStrategy w (chooseStrategy ep) st).1 =
        .error (.timeoutExpired 30) := by
      intro st
      rw [hcs]
      simp only [runStrategy, execute_shell_command, subprocessRun]
      rw [if_pos hdur]
    have hd := dispatch_file_ep (w := w) (s := applyEnvVars event.env s) h1 h2 h3 h4
    rw [execute_entrypoint_err (herr _)] at hd
    rw [handler_of_dispatch_err hd]
    exact ⟨rfl, rfl⟩

/-- A world whose shell commands take 31 seconds. -/
def slowShellWorld : World :=
  { emptyWorld with
    runShell := fun _ => { duration := 31, stdout := "", stderr := "", returncode := 0 } }

/-- Witness for C5: a 31-second shell command times out and the request
fails with the 30-second timeout message. -/
theorem subprocess_timeout_witness :
    (runpod_handler slowShellWorld
        { file := some "x", filename := some "t.txt", entrypoint := some "sleep 60" }
        initState).1.status = .FAILED ∧
    (runpod_handler slowShellWorld
        { file := some "x", filename := some "t.txt", entrypoint := some "sleep 60" }
        initState).1.error =
      some ("Deployment error: " ++ Fault.toMessage (.timeoutExpired 30)) :=
  (subprocess_timeout slowShellWorld
      { file := some "x", filename := some "t.txt", entrypoint := some "sleep 60" }
      initState "x" "t.txt" "sleep 60" "sleep 60" rfl rfl rfl rfl).2.2
    (by decide) (by decide)

/-! ### C1: materialization confinement -/

theorem mem_created_extractAll {ed : String} {entries : List ZipEntry} {s : PState}
    {pc : String × String} (h : pc ∈ (extractAll ed entries s).created) :
    pc ∈ s.created ∨ ∃ e ∈ entries, pc = (joinPath ed (arcname e.name), e.content) := by
  induction entries generalizing s with
  | nil => exact Or.inl h
  | cons e rest ih =>
      have h1 : extractAll ed (e :: rest) s =
          extractAll ed rest (writeFile (joinPath ed (arcname e.name)) e.content s) := rfl
      rw [h1] at h
      rcases ih h with h2 | h2
      · simp only [writeFile] at h2
        rcases List.mem_cons.mp h2 with h3 | h3
        · exact Or.inr ⟨e, List.mem_cons_self _ _, h3⟩
        · exact Or.inl h3
      · rcases h2 with ⟨e2, he2, heq⟩
        exact Or.inr ⟨e2, List.mem_cons_of_mem _ he2, heq⟩

/-- C1 fails as stated; what actually holds (amended):
archive extraction never rejects an unsafe entry — it sanitizes the
member name, so every write of the artifact handler lands under the
request's temporary directory — while the inline-file path performs no
check at all: the content is written at `os.path.join(temp_dir,
filename)` and the request completes without any `PayloadError`, even
when that joined path escapes the working directory. -/
theorem materialization_confinement (w : World) (s : PState) :
    (∀ event entries, event.artifact = some (.zip entries) → event.entrypoint = none →
        ∀ pc, pc ∈ ((handle_artifact_deployment w event s).2).created →
          pc ∉ s.created →
          underOrEq (tempName s.nextTemp) pc.1 = true) ∧
    (∀ event c fn, event.file = some c → event.filename = some fn →
        event.entrypoint = none →
        (handle_file_deployment w event s).1 =
          .ok { status := .COMPLETED,
                message := some ("File " ++ fn ++ " deployed successfully"),
                content_preview := some (takePreview c),
                filename := some fn } ∧
        (joinPath (tempName s.nextTemp) fn, c) ∈
          ((handle_file_deployment w event s).2).created) := by
  constructor
  · intro event entries hart hep pc hpc hnot
    simp only [handle_artifact_deployment, hart, hep, withTempDir, rmtree,
      makeDirs, tempCreate] at hpc
    rcases mem_created_extractAll hpc with h2 | h2
    · simp only [writeFile] at h2
      rcases List.mem_cons.mp h2 with h3 | h3
      · rw [h3]
        exact joinPath_rel_confined _ "deployment.zip" (by decide) (by decide)
      · exact absurd h3 hnot
    · rcases h2 with ⟨e2, _, heq⟩
      rw [heq]
      exact underOrEq_trans
        (joinPath_rel_confined (tempName s.nextTemp) "extracted" (by decide) (by decide))
        (arcname_confined (joinPath (tempName s.nextTemp) "extracted") e2.name)
  · intro event c fn hf hfn hep
    constructor
    · simp only [handle_file_deployment, hf, hfn, hep, withTempDir, Option.getD_some]
    · simp only [handle_file_deployment, hf, hfn, hep, withTempDir, writeFile,
        tempCreate, rmtree, Option.getD_some]
      exact List.mem_cons_self _ _

/-- Counterexample to C1 as stated: an inline file named `../evil.txt`
is written outside the working directory (`/tmp/tmp0/../evil.txt`
resolves to `/tmp/evil.txt`), no PayloadError is raised, and the
request reports COMPLETED. -/
theorem path_traversal_not_rejected :
    (runpod_handler emptyWorld
        { file := some "payload", filename := some "../evil.txt" }
        initState).1.status = .COMPLETED ∧
    ("/tmp/tmp0/../evil.txt", "payload") ∈
      ((runpod_handler emptyWorld
          { file := some "payload", filename := some "../evil.txt" }
          initState).2).created ∧
    underOrEq "/tmp/tmp0" "/tmp/tmp0/../evil.txt" = false ∧
    resolve "/tmp/tmp0/../evil.txt" = resolve "/tmp/evil.txt" := by
  refine ⟨by decide, by decide, by decide, by decide⟩

/-- Witness for the amended C1: a benign inline file completes and is
written at the joined path; a zip entry named `../evil.txt` is
sanitized and its write stays under the temporary directory. -/
theorem materialization_confinement_witness :
    ((handle_file_deployment emptyWorld
        { file := some "hello", filename := some "a.txt" } initState).1 =
      .ok { status := .COMPLETED,
            message := some ("File " ++ "a.txt" ++ " deployed successfully"),
            content_preview := some (takePreview "hello"),
            filename := some "a.txt" } ∧
     (joinPath (tempName initState.nextTemp) "a.txt", "hello") ∈
       ((handle_file_deployment emptyWorld
           { file := some "hello", filename := some "a.txt" } initState).2).created) ∧
    underOrEq (tempName initState.nextTemp) "/tmp/tmp0/extracted/evil.txt" = true := by
  constructor
  · exact (materialization_confinement emptyWorld initState).2
      { file := some "hello", filename := some "a.txt" } "hello" "a.txt" rfl rfl rfl
  · exact (materialization_confinement emptyWorld initState).1
      { artifact := some (.zip [{ name := "../evil.txt", content := "x" }]) }
      [{ name := "../evil.txt", content := "x" }] rfl rfl
      ("/tmp/tmp0/extracted/evil.txt", "x") (by decide) (by decide)

end RunpodWorker
